import Mathlib

set_option maxHeartbeats 1000000

/-- Go strings are modelled as lists of characters (byte-level slicing in the
source only ever splits at the ASCII character `*`, so the character-level
model coincides with Go's byte-level operations on the relevant inputs). -/
abbrev GoStr := List Char

/-- Embed a Lean string literal into the Go-string model. -/
def gs (s : String) : GoStr := s.data

/-- gRPC status codes used by the rate-limiting layer (`codes.Internal`,
`codes.ResourceExhausted`; `OK` for completeness). -/
inductive GrpcCode
  | OK
  | Internal
  | ResourceExhausted
  deriving DecidableEq

/-- A gRPC status error, as built by `status.Error(code, msg)`. -/
structure GrpcError where
  code : GrpcCode
  msg : GoStr
  deriving DecidableEq

/-- One `limiterBundle` (monitor.go): a token-bucket limiter `qps` and a
concurrency semaphore `conc` (a buffered channel). `qpsTokens` is the number
of tokens currently in the bucket, `concUsed`/`concCap` the occupancy and
capacity of the `conc` channel. -/
structure limiterBundle where
  qpsTokens : Nat
  concUsed : Nat
  concCap : Nat
  deriving DecidableEq

/-- `RateLimiterConfig` (monitor.go). `Rate` is Go `float64`, modelled as a
rational; `NatsConn` is the injected NATS publisher, modelled by an optional
publisher identity (`none` = nil connection). -/
structure RateLimiterConfig where
  Rate : Rat
  Burst : Int
  Concurrent : Int
  GlobalConcurrent : Int
  NatsConn : Option Nat
  NatsTopic : GoStr
  BypassPatterns : List GoStr
  deriving DecidableEq

/-- The package-level mutable state of monitor.go: the active
`DefaultRateLimiterConfig`, the global semaphore `globalSem` (occupancy and
capacity of the buffered channel), the heap of `limiterBundle` values (Go
pointers become indices into `heap`), and `limiterMap` mapping a key
`ip|method` to the heap index of its bundle. -/
structure ServerState where
  config : RateLimiterConfig
  globalUsed : Nat
  globalCap : Nat
  heap : List limiterBundle
  limiterMap : List (GoStr × Nat)
  deriving DecidableEq

/-- Read a bundle from the heap; a dangling index yields the zero bundle
(unreachable in the Go program, where pointers are always valid). -/
def heapGet : List limiterBundle → Nat → limiterBundle
  | [], _ => ⟨0, 0, 0⟩
  | b :: _, 0 => b
  | _ :: rest, n + 1 => heapGet rest n

/-- Overwrite a bundle in the heap (mutation through a Go pointer). -/
def heapSet : List limiterBundle → Nat → limiterBundle → List limiterBundle
  | [], _, _ => []
  | _ :: rest, 0, b => b :: rest
  | x :: rest, n + 1, b => x :: heapSet rest n b

/-- Lookup in the limiter map (sync.Map.Load). -/
def mapLookup : List (GoStr × Nat) → GoStr → Option Nat
  | [], _ => none
  | (k, v) :: rest, key => if k = key then some v else mapLookup rest key

/-- `acquireGlobal` (monitor.go): non-blocking select on `globalSem`; succeeds
exactly when the buffered channel has room. -/
def acquireGlobal (st : ServerState) : Bool × ServerState :=
  if st.globalUsed < st.globalCap then
    (true, { st with globalUsed := st.globalUsed + 1 })
  else
    (false, st)

/-- `releaseGlobal` (monitor.go): receive one token from `globalSem`. -/
def releaseGlobal (st : ServerState) : ServerState :=
  { st with globalUsed := st.globalUsed - 1 }

/-- Iterate `acquireGlobal` a number of times, reporting whether every
attempt succeeded (used to state the capacity property of the pool). -/
def acquireN : ServerState → Nat → ServerState × Bool
  | st, 0 => (st, true)
  | st, n + 1 =>
      let r := acquireGlobal st
      let rest := acquireN r.2 n
      (rest.1, r.1 && rest.2)

/-- A fresh `limiterBundle` as built inside `getLimiter`: a full token bucket
of capacity `Burst` (x/time/rate limiters start full) and an empty concurrency
channel of capacity `Concurrent`, both taken from the active configuration. -/
def newBundle (cfg : RateLimiterConfig) : limiterBundle :=
  { qpsTokens := cfg.Burst.toNat, concUsed := 0, concCap := cfg.Concurrent.toNat }

/-- `getLimiter` (monitor.go): `limiterMap.LoadOrStore(key, fresh bundle)`.
Returns the heap index of the bundle for `key`, creating it lazily from the
active configuration. -/
def getLimiter (st : ServerState) (key : GoStr) : Nat × ServerState :=
  match mapLookup st.limiterMap key with
  | some ptr => (ptr, st)
  | none =>
      (st.heap.length,
        { st with
            heap := st.heap ++ [newBundle st.config],
            limiterMap := (key, st.heap.length) :: st.limiterMap })

/-- `limiter.qps.Allow()`: consume one token now if available, else fail
immediately (never waits). The timed refill of the bucket is not modelled;
only the instantaneous consume-or-fail decision is. -/
def qpsAllow (st : ServerState) (ptr : Nat) : Bool × ServerState :=
  let b := heapGet st.heap ptr
  if 0 < b.qpsTokens then
    (true, { st with heap := heapSet st.heap ptr { b with qpsTokens := b.qpsTokens - 1 } })
  else
    (false, st)

/-- Non-blocking send on `limiter.conc` (the `select`/`default` in the
interceptors): succeeds exactly when the channel has room. -/
def concTryAcquire (st : ServerState) (ptr : Nat) : Bool × ServerState :=
  let b := heapGet st.heap ptr
  if b.concUsed < b.concCap then
    (true, { st with heap := heapSet st.heap ptr { b with concUsed := b.concUsed + 1 } })
  else
    (false, st)

/-- Receive on `limiter.conc` (the deferred `<-limiter.conc`). -/
def concRelease (st : ServerState) (ptr : Nat) : ServerState :=
  let b := heapGet st.heap ptr
  { st with heap := heapSet st.heap ptr { b with concUsed := b.concUsed - 1 } }

/-- `isBypassMethod` (monitor.go): exact match, or, when a pattern is
non-empty and its last character is `*`, match the pattern minus the final
`*` as a leading segment of the method name, guarded by a length check
exactly as the Go slicing does. -/
def isBypassMethod (patterns : List GoStr) (method : GoStr) : Bool :=
  patterns.any fun pattern =>
    pattern == method ||
      (!pattern.isEmpty && pattern.getLast? == some '*' &&
        decide (pattern.dropLast.length ≤ method.length) &&
        method.take pattern.dropLast.length == pattern.dropLast)

/-- The claim's own wording of the bypass rule: some pattern equals the
operation name, or some pattern ends with the wildcard marker and the
pattern minus its final `*` starts the operation name. -/
def startsWith (p m : GoStr) : Prop := ∃ t, m = p ++ t

/-- Specification-side bypass predicate, written from the claim's words, to
be compared with the code-side `isBypassMethod`. -/
def bypassSpec (patterns : List GoStr) (method : GoStr) : Prop :=
  ∃ p ∈ patterns, p = method ∨ (p.getLast? = some '*' ∧ startsWith p.dropLast method)

/-- A rate-limit alert as published to NATS (timestamp and fixed message
omitted; the fields relevant to the claims are ip, method and direction). -/
structure Notification where
  ip : GoStr
  method : GoStr
  direction : GoStr
  deriving DecidableEq

/-- `sendNatsNotification` (monitor.go): when no NATS connection is
configured, return immediately (no publish attempt); otherwise one
fire-and-forget publish attempt is made. The value is the list of publish
attempts caused by the call. -/
def sendNatsNotification (cfg : RateLimiterConfig) (ip method direction : GoStr) :
    List Notification :=
  match cfg.NatsConn with
  | none => []
  | some _ => [⟨ip, method, direction⟩]

/-- Behaviour of a downstream handler: return normally, return an error, or
panic. -/
inductive HandlerBehavior
  | ok
  | fails (e : GrpcError)
  | panics
  deriving DecidableEq

/-- What the caller of the interceptor observes: the handler's normal result,
the handler's error, a rejection error created by the gate, or an
unrecovered panic propagating out of the interceptor. -/
inductive CallResult
  | handlerOk
  | handlerErr (e : GrpcError)
  | rejected (e : GrpcError)
  | panicked
  deriving DecidableEq

/-- Returning `handler(ctx, req)` directly: the handler's outcome (a panic
propagates, since the interceptor installs no recover). -/
def handlerOutcome : HandlerBehavior → CallResult
  | .ok => .handlerOk
  | .fails e => .handlerErr e
  | .panics => .panicked

/-- Complete observable record of one unary call through the interceptor:
the caller-visible result, the final package state, the metric increments
`(key label, direction label)` on `grpcRateLimitedTotal`, the NATS publish
attempts, whether the downstream handler ran, and instrumentation counting
the slot acquisitions and releases performed on the path. -/
structure UnaryResult where
  result : CallResult
  state : ServerState
  metrics : List (GoStr × GoStr)
  notes : List Notification
  handlerInvoked : Bool
  globalAcq : Nat
  globalRel : Nat
  concAcq : Nat
  concRel : Nat
  deriving DecidableEq

/-- `UnaryRateLimitInterceptor` (monitor.go), for one call from client `ip`
to `method` whose downstream handler behaves as `h`. Mirrors the source:
bypass check; `acquireGlobal` with deferred release; `getLimiter` on
`ip|method`; `qps.Allow`; non-blocking `conc` acquire with deferred release;
handler invocation. Deferred releases run on every exit, including a handler
panic. -/
def UnaryRateLimitInterceptor (st : ServerState) (ip method : GoStr)
    (h : HandlerBehavior) : UnaryResult :=
  if isBypassMethod st.config.BypassPatterns method then
    { result := handlerOutcome h, state := st, metrics := [], notes := [],
      handlerInvoked := true, globalAcq := 0, globalRel := 0, concAcq := 0, concRel := 0 }
  else
    match acquireGlobal st with
    | (false, st1) =>
        { result := .rejected ⟨.Internal, gs "server busy"⟩, state := st1,
          metrics := [(gs "global", gs "unary")],
          notes := sendNatsNotification st1.config ip method (gs "unary_global_concurrent"),
          handlerInvoked := false, globalAcq := 0, globalRel := 0, concAcq := 0, concRel := 0 }
    | (true, st1) =>
        let key := ip ++ ['|'] ++ method
        match getLimiter st1 key with
        | (ptr, st2) =>
          match qpsAllow st2 ptr with
          | (false, st3) =>
              { result := .rejected ⟨.Internal, gs "rate limit exceeded"⟩,
                state := releaseGlobal st3,
                metrics := [(key, gs "unary")],
                notes := sendNatsNotification st3.config ip method (gs "unary_qps"),
                handlerInvoked := false, globalAcq := 1, globalRel := 1, concAcq := 0, concRel := 0 }
          | (true, st3) =>
              match concTryAcquire st3 ptr with
              | (false, st4) =>
                  { result := .rejected ⟨.Internal, gs "too many concurrent requests"⟩,
                    state := releaseGlobal st4,
                    metrics := [(key, gs "unary")],
                    notes := sendNatsNotification st4.config ip method (gs "unary_concurrent"),
                    handlerInvoked := false, globalAcq := 1, globalRel := 1, concAcq := 0, concRel := 0 }
              | (true, st4) =>
                  { result := handlerOutcome h,
                    state := releaseGlobal (concRelease st4 ptr),
                    metrics := [], notes := [],
                    handlerInvoked := true, globalAcq := 1, globalRel := 1, concAcq := 1, concRel := 1 }

/-- The two message operations of a gRPC server stream that the decorator
intercepts. -/
inductive StreamOp
  | recv
  | send
  deriving DecidableEq

/-- `rateLimitServerStream` (monitor.go): the decorator around the raw
`grpc.ServerStream`, holding the method, the client ip and a pointer to the
shared `limiterBundle`. -/
structure rateLimitServerStream where
  method : GoStr
  ip : GoStr
  limiter : Nat
  deriving DecidableEq

/-- Observable outcome of one `RecvMsg`/`SendMsg` through the decorator:
the error returned for that message (none on success), whether the call was
delegated to the underlying transport, the state afterwards, and the metric
increments and publish attempts it caused. -/
structure MsgResult where
  error : Option GrpcError
  transportInvoked : Bool
  state : ServerState
  metrics : List (GoStr × GoStr)
  notes : List Notification
  deriving DecidableEq

/-- `rateLimitServerStream.RecvMsg` (monitor.go): consult the shared token
bucket; on failure return a per-message error without touching the
underlying transport; on success delegate. -/
def RecvMsg (st : ServerState) (s : rateLimitServerStream) : MsgResult :=
  match qpsAllow st s.limiter with
  | (false, st1) =>
      { error := some ⟨.Internal, gs "stream recv rate limit exceeded"⟩,
        transportInvoked := false, state := st1,
        metrics := [(s.ip ++ ['|'] ++ s.method, gs "stream_recv")],
        notes := sendNatsNotification st1.config s.ip s.method (gs "stream_recv_qps") }
  | (true, st1) =>
      { error := none, transportInvoked := true, state := st1, metrics := [], notes := [] }

/-- `rateLimitServerStream.SendMsg` (monitor.go): same shape as `RecvMsg`
with the send-side labels and message. -/
def SendMsg (st : ServerState) (s : rateLimitServerStream) : MsgResult :=
  match qpsAllow st s.limiter with
  | (false, st1) =>
      { error := some ⟨.Internal, gs "stream send rate limit exceeded"⟩,
        transportInvoked := false, state := st1,
        metrics := [(s.ip ++ ['|'] ++ s.method, gs "stream_send")],
        notes := sendNatsNotification st1.config s.ip s.method (gs "stream_send_qps") }
  | (true, st1) =>
      { error := none, transportInvoked := true, state := st1, metrics := [], notes := [] }

/-- Record of one message operation as seen by the stream handler. -/
structure MsgStep where
  op : StreamOp
  error : Option GrpcError
  transportInvoked : Bool
  deriving DecidableEq

/-- Accumulated outcome of a sequence of message operations on a wrapped
stream. -/
structure OpsResult where
  state : ServerState
  steps : List MsgStep
  metrics : List (GoStr × GoStr)
  notes : List Notification
  deriving DecidableEq

/-- Run the stream handler's sequence of receive/send operations through the
decorator. A rejected message yields an error for that operation only; the
stream stays open and the remaining operations still run (continuation is
the caller's decision). -/
def processOps (s : rateLimitServerStream) : ServerState → List StreamOp → OpsResult
  | st, [] => ⟨st, [], [], []⟩
  | st, op :: rest =>
      let r : MsgResult :=
        match op with
        | .recv => RecvMsg st s
        | .send => SendMsg st s
      let rr := processOps s r.state rest
      ⟨rr.state, ⟨op, r.error, r.transportInvoked⟩ :: rr.steps,
        r.metrics ++ rr.metrics, r.notes ++ rr.notes⟩

/-- Complete observable record of one stream through the interceptor:
caller-visible result of the stream handler, final state, the per-message
steps the handler performed, metric increments, publish attempts, whether
the handler ran, slot-accounting instrumentation, and the bundle pointer
held by the decorator (when one was installed). -/
structure StreamResult where
  result : CallResult
  state : ServerState
  steps : List MsgStep
  metrics : List (GoStr × GoStr)
  notes : List Notification
  handlerInvoked : Bool
  globalAcq : Nat
  globalRel : Nat
  concAcq : Nat
  concRel : Nat
  wrappedLimiter : Option Nat
  deriving DecidableEq

/-- `StreamRateLimitInterceptor` (monitor.go), for one stream from `ip` to
`method` whose handler performs the message operations `ops` and finally
behaves as `hend` (return nil, return an error, or panic). Mirrors the
source: bypass check; `acquireGlobal` with deferred release; `getLimiter`;
non-blocking `conc` acquire with deferred release; wrap the stream in
`rateLimitServerStream` sharing the bundle pointer; run the handler.
There is no token-bucket check at stream open. A bypassed stream passes the
raw (unwrapped) stream to the handler, so its operations reach the
transport with no checks. -/
def StreamRateLimitInterceptor (st : ServerState) (ip method : GoStr)
    (ops : List StreamOp) (hend : HandlerBehavior) : StreamResult :=
  if isBypassMethod st.config.BypassPatterns method then
    { result := handlerOutcome hend, state := st,
      steps := ops.map fun op => ⟨op, none, true⟩,
      metrics := [], notes := [], handlerInvoked := true,
      globalAcq := 0, globalRel := 0, concAcq := 0, concRel := 0, wrappedLimiter := none }
  else
    match acquireGlobal st with
    | (false, st1) =>
        { result := .rejected ⟨.Internal, gs "server busy"⟩, state := st1,
          steps := [], metrics := [(gs "global", gs "stream")],
          notes := sendNatsNotification st1.config ip method (gs "stream_global_concurrent"),
          handlerInvoked := false, globalAcq := 0, globalRel := 0, concAcq := 0, concRel := 0,
          wrappedLimiter := none }
    | (true, st1) =>
        let key := ip ++ ['|'] ++ method
        match getLimiter st1 key with
        | (ptr, st2) =>
          match concTryAcquire st2 ptr with
          | (false, st3) =>
              { result := .rejected ⟨.Internal, gs "too many concurrent streams"⟩,
                state := releaseGlobal st3,
                steps := [], metrics := [(key, gs "stream")],
                notes := sendNatsNotification st3.config ip method (gs "stream_concurrent"),
                handlerInvoked := false, globalAcq := 1, globalRel := 1, concAcq := 0, concRel := 0,
                wrappedLimiter := none }
          | (true, st3) =>
              let wrapped : rateLimitServerStream := ⟨method, ip, ptr⟩
              let rr := processOps wrapped st3 ops
              { result := handlerOutcome hend,
                state := releaseGlobal (concRelease rr.state ptr),
                steps := rr.steps, metrics := rr.metrics, notes := rr.notes,
                handlerInvoked := true,
                globalAcq := 1, globalRel := 1, concAcq := 1, concRel := 1,
                wrappedLimiter := some ptr }

/-- `InitRateLimiterConfig` (monitor.go): partial update — each numeric
field is overwritten only when positive; a positive `GlobalConcurrent`
additionally recreates `globalSem` as a fresh (empty) channel of the new
capacity; `NatsConn` is overwritten unconditionally; `NatsTopic` only when
non-empty; `BypassPatterns` only when non-empty; and `limiterMap` is always
reset to an empty map (bundles already held by in-flight callers stay valid
on the heap). -/
def InitRateLimiterConfig (st : ServerState) (config : RateLimiterConfig) : ServerState :=
  { config :=
      { Rate := if config.Rate > 0 then config.Rate else st.config.Rate,
        Burst := if config.Burst > 0 then config.Burst else st.config.Burst,
        Concurrent := if config.Concurrent > 0 then config.Concurrent else st.config.Concurrent,
        GlobalConcurrent :=
          if config.GlobalConcurrent > 0 then config.GlobalConcurrent
          else st.config.GlobalConcurrent,
        NatsConn := config.NatsConn,
        NatsTopic := if config.NatsTopic ≠ [] then config.NatsTopic else st.config.NatsTopic,
        BypassPatterns :=
          if config.BypassPatterns.length > 0 then config.BypassPatterns
          else st.config.BypassPatterns },
    globalUsed := if config.GlobalConcurrent > 0 then 0 else st.globalUsed,
    globalCap :=
      if config.GlobalConcurrent > 0 then config.GlobalConcurrent.toNat else st.globalCap,
    heap := st.heap,
    limiterMap := [] }

/-- Replace only the configured publisher of a state (used to compare runs
that differ in nothing but the NATS connection). -/
def setPub (st : ServerState) (p : Option Nat) : ServerState :=
  { st with config := { st.config with NatsConn := p } }

/-- `DefaultRateLimiterConfig` (monitor.go), the initial configuration. -/
def DefaultRateLimiterConfig : RateLimiterConfig :=
  { Rate := 50, Burst := 100, Concurrent := 30, GlobalConcurrent := 300,
    NatsConn := none,
    NatsTopic := gs "gocloud.rate_limit.alert",
    BypassPatterns := [gs "/grpc.health.v1.Health/Check", gs "/grpc.health.v1.Health/Watch"] }

/-- A state whose global pool has capacity zero, so it is full with no
outstanding acquisitions: the global try-acquire fails. -/
def stFullGlobal : ServerState :=
  { config := DefaultRateLimiterConfig, globalUsed := 0, globalCap := 0,
    heap := [], limiterMap := [] }

/-- A small healthy state: room in the global pool, empty registry. -/
def stIdle : ServerState :=
  { config := DefaultRateLimiterConfig, globalUsed := 0, globalCap := 1,
    heap := [], limiterMap := [] }

/-- A test client address and a non-bypassed method name. -/
def ipA : GoStr := gs "10.0.0.7"

/-- A non-bypassed test method. -/
def methodA : GoStr := gs "/pkg.Svc/Do"

/-- A state in which the bundle for `ipA|methodA` exists with an exhausted
token bucket but free concurrency slots; the global pool has room. -/
def stTokensGone : ServerState :=
  { config := DefaultRateLimiterConfig, globalUsed := 0, globalCap := 300,
    heap := [⟨0, 0, 30⟩],
    limiterMap := [(ipA ++ ['|'] ++ methodA, 0)] }


/-- Reading past the end of the heap yields the zero bundle. -/
theorem heapGet_oob : ∀ (hp : List limiterBundle) (n : Nat), hp.length ≤ n →
    heapGet hp n = ⟨0, 0, 0⟩ := by
  intro hp
  induction hp with
  | nil => intro n _; cases n <;> rfl
  | cons b rest ih =>
      intro n hn
      cases n with
      | zero => simp at hn
      | succ m => exact ih m (Nat.le_of_succ_le_succ hn)

/-- A positive token count proves the pointer is live. -/
theorem lt_length_of_qpsTokens_pos {hp : List limiterBundle} {n : Nat}
    (h : 0 < (heapGet hp n).qpsTokens) : n < hp.length := by
  by_contra hn
  rw [heapGet_oob hp n (Nat.le_of_not_lt hn)] at h
  exact Nat.lt_irrefl 0 h

/-- A positive concurrency capacity proves the pointer is live. -/
theorem lt_length_of_concCap_pos {hp : List limiterBundle} {n : Nat}
    (h : (heapGet hp n).concUsed < (heapGet hp n).concCap) : n < hp.length := by
  by_contra hn
  rw [heapGet_oob hp n (Nat.le_of_not_lt hn)] at h
  exact Nat.not_lt_zero _ h

/-- Writing then reading the same live slot returns the written bundle. -/
theorem heapGet_heapSet_self : ∀ (hp : List limiterBundle) (n : Nat) (b : limiterBundle),
    n < hp.length → heapGet (heapSet hp n b) n = b := by
  intro hp
  induction hp with
  | nil => intro n b h; simp at h
  | cons x rest ih =>
      intro n b h
      cases n with
      | zero => rfl
      | succ m => exact ih m b (Nat.lt_of_succ_lt_succ h)

/-- Writing one slot leaves every other slot unchanged. -/
theorem heapGet_heapSet_ne : ∀ (hp : List limiterBundle) (n m : Nat) (b : limiterBundle),
    n ≠ m → heapGet (heapSet hp n b) m = heapGet hp m := by
  intro hp
  induction hp with
  | nil => intro n m b _; cases n <;> rfl
  | cons x rest ih =>
      intro n m b hnm
      cases n with
      | zero =>
          cases m with
          | zero => exact absurd rfl hnm
          | succ k => rfl
      | succ j =>
          cases m with
          | zero => rfl
          | succ k => exact ih j k b (fun he => hnm (by rw [he]))

/-- Writing a slot does not change the heap's size. -/
theorem heapSet_length : ∀ (hp : List limiterBundle) (n : Nat) (b : limiterBundle),
    (heapSet hp n b).length = hp.length := by
  intro hp
  induction hp with
  | nil => intro n b; rfl
  | cons x rest ih =>
      intro n b
      cases n with
      | zero => rfl
      | succ m => simp [heapSet, ih m b]

/-- Reading the freshly appended slot returns the appended bundle. -/
theorem heapGet_append_self : ∀ (hp : List limiterBundle) (b : limiterBundle),
    heapGet (hp ++ [b]) hp.length = b := by
  intro hp b
  induction hp with
  | nil => rfl
  | cons x rest ih => simpa [heapGet] using ih

/-- Appending a slot does not change reads of existing positions. -/
theorem heapGet_append_lt : ∀ (hp : List limiterBundle) (b : limiterBundle) (n : Nat),
    n < hp.length → heapGet (hp ++ [b]) n = heapGet hp n := by
  intro hp b
  induction hp with
  | nil => intro n h; simp at h
  | cons x rest ih =>
      intro n h
      cases n with
      | zero => rfl
      | succ m => exact ih m (Nat.lt_of_succ_lt_succ h)

/-- A successful global try-acquire takes one slot. -/
theorem acquireGlobal_pos {st : ServerState} (h : st.globalUsed < st.globalCap) :
    acquireGlobal st = (true, { st with globalUsed := st.globalUsed + 1 }) := by
  simp [acquireGlobal, h]

/-- A failed global try-acquire returns immediately with the state unchanged. -/
theorem acquireGlobal_neg {st : ServerState} (h : ¬ st.globalUsed < st.globalCap) :
    acquireGlobal st = (false, st) := by
  simp [acquireGlobal, h]

/-- An empty bucket fails `Allow` and leaves the state unchanged. -/
theorem qpsAllow_zero {st : ServerState} {ptr : Nat}
    (h : (heapGet st.heap ptr).qpsTokens = 0) : qpsAllow st ptr = (false, st) := by
  simp [qpsAllow, h]

/-- A non-empty bucket passes `Allow`, consuming one token. -/
theorem qpsAllow_pos {st : ServerState} {ptr : Nat}
    (h : 0 < (heapGet st.heap ptr).qpsTokens) :
    qpsAllow st ptr = (true,
      { st with heap := heapSet st.heap ptr ({ heapGet st.heap ptr with qpsTokens := (heapGet st.heap ptr).qpsTokens - 1 }) }) := by
  simp [qpsAllow, h]

/-- A full per-key concurrency channel fails the non-blocking acquire. -/
theorem concTryAcquire_neg {st : ServerState} {ptr : Nat}
    (h : ¬ (heapGet st.heap ptr).concUsed < (heapGet st.heap ptr).concCap) :
    concTryAcquire st ptr = (false, st) := by
  simp [concTryAcquire, h]

/-- A per-key concurrency channel with room grants a slot. -/
theorem concTryAcquire_pos {st : ServerState} {ptr : Nat}
    (h : (heapGet st.heap ptr).concUsed < (heapGet st.heap ptr).concCap) :
    concTryAcquire st ptr = (true,
      { st with heap := heapSet st.heap ptr ({ heapGet st.heap ptr with concUsed := (heapGet st.heap ptr).concUsed + 1 }) }) := by
  simp [concTryAcquire, h]

/-- `getLimiter` never changes the configuration. -/
theorem getLimiter_config (st : ServerState) (key : GoStr) :
    ((getLimiter st key).2).config = st.config := by
  unfold getLimiter
  cases mapLookup st.limiterMap key <;> rfl

/-- `getLimiter` never touches the global semaphore. -/
theorem getLimiter_globalUsed (st : ServerState) (key : GoStr) :
    ((getLimiter st key).2).globalUsed = st.globalUsed := by
  unfold getLimiter
  cases mapLookup st.limiterMap key <;> rfl

/-- `getLimiter` never touches the global semaphore's capacity. -/
theorem getLimiter_globalCap (st : ServerState) (key : GoStr) :
    ((getLimiter st key).2).globalCap = st.globalCap := by
  unfold getLimiter
  cases mapLookup st.limiterMap key <;> rfl

/-- `qpsAllow` never changes the configuration. -/
theorem qpsAllow_config (st : ServerState) (ptr : Nat) :
    ((qpsAllow st ptr).2).config = st.config := by
  unfold qpsAllow
  by_cases h : 0 < (heapGet st.heap ptr).qpsTokens <;> simp [h]

/-- `qpsAllow` never touches the global semaphore. -/
theorem qpsAllow_globalUsed (st : ServerState) (ptr : Nat) :
    ((qpsAllow st ptr).2).globalUsed = st.globalUsed := by
  unfold qpsAllow
  by_cases h : 0 < (heapGet st.heap ptr).qpsTokens <;> simp [h]

/-- `qpsAllow` changes no bundle's concurrency occupancy. -/
theorem qpsAllow_concUsed (st : ServerState) (ptr : Nat) (p : Nat) :
    (heapGet ((qpsAllow st ptr).2).heap p).concUsed = (heapGet st.heap p).concUsed := by
  unfold qpsAllow
  by_cases h : 0 < (heapGet st.heap ptr).qpsTokens
  · simp only [h, if_true]
    by_cases hp : ptr = p
    · subst hp
      rw [heapGet_heapSet_self _ _ _ (lt_length_of_qpsTokens_pos h)]
    · rw [heapGet_heapSet_ne _ _ _ _ hp]
  · simp [h]

/-- `concTryAcquire` never changes the configuration. -/
theorem concTryAcquire_config (st : ServerState) (ptr : Nat) :
    ((concTryAcquire st ptr).2).config = st.config := by
  unfold concTryAcquire
  by_cases h : (heapGet st.heap ptr).concUsed < (heapGet st.heap ptr).concCap <;> simp [h]

/-- `concTryAcquire` never touches the global semaphore. -/
theorem concTryAcquire_globalUsed (st : ServerState) (ptr : Nat) :
    ((concTryAcquire st ptr).2).globalUsed = st.globalUsed := by
  unfold concTryAcquire
  by_cases h : (heapGet st.heap ptr).concUsed < (heapGet st.heap ptr).concCap <;> simp [h]

/-- `concTryAcquire` keeps every bundle's token count. -/
theorem concTryAcquire_qpsTokens (st : ServerState) (ptr : Nat) (p : Nat) :
    (heapGet ((concTryAcquire st ptr).2).heap p).qpsTokens = (heapGet st.heap p).qpsTokens := by
  unfold concTryAcquire
  by_cases h : (heapGet st.heap ptr).concUsed < (heapGet st.heap ptr).concCap
  · simp only [h, if_true]
    by_cases hp : ptr = p
    · subst hp
      rw [heapGet_heapSet_self _ _ _ (lt_length_of_concCap_pos h)]
    · rw [heapGet_heapSet_ne _ _ _ _ hp]
  · simp [h]

/-- `releaseGlobal` changes only the global occupancy. -/
theorem releaseGlobal_config (st : ServerState) : (releaseGlobal st).config = st.config := rfl

/-- `releaseGlobal` keeps the heap. -/
theorem releaseGlobal_heap (st : ServerState) : (releaseGlobal st).heap = st.heap := rfl

/-- `concRelease` keeps the configuration. -/
theorem concRelease_config (st : ServerState) (ptr : Nat) :
    (concRelease st ptr).config = st.config := rfl

/-- `concRelease` keeps the global occupancy. -/
theorem concRelease_globalUsed (st : ServerState) (ptr : Nat) :
    (concRelease st ptr).globalUsed = st.globalUsed := rfl

/-- A single decorated receive keeps the configuration. -/
theorem RecvMsg_config (st : ServerState) (s : rateLimitServerStream) :
    (RecvMsg st s).state.config = st.config := by
  unfold RecvMsg
  rcases hq : qpsAllow st s.limiter with ⟨b, st1⟩
  have := qpsAllow_config st s.limiter
  rw [hq] at this
  cases b <;> simpa using this

/-- A single decorated send keeps the configuration. -/
theorem SendMsg_config (st : ServerState) (s : rateLimitServerStream) :
    (SendMsg st s).state.config = st.config := by
  unfold SendMsg
  rcases hq : qpsAllow st s.limiter with ⟨b, st1⟩
  have := qpsAllow_config st s.limiter
  rw [hq] at this
  cases b <;> simpa using this

/-- A single decorated receive keeps the global occupancy. -/
theorem RecvMsg_globalUsed (st : ServerState) (s : rateLimitServerStream) :
    (RecvMsg st s).state.globalUsed = st.globalUsed := by
  unfold RecvMsg
  rcases hq : qpsAllow st s.limiter with ⟨b, st1⟩
  have := qpsAllow_globalUsed st s.limiter
  rw [hq] at this
  cases b <;> simpa using this

/-- A single decorated send keeps the global occupancy. -/
theorem SendMsg_globalUsed (st : ServerState) (s : rateLimitServerStream) :
    (SendMsg st s).state.globalUsed = st.globalUsed := by
  unfold SendMsg
  rcases hq : qpsAllow st s.limiter with ⟨b, st1⟩
  have := qpsAllow_globalUsed st s.limiter
  rw [hq] at this
  cases b <;> simpa using this

/-- A single decorated receive keeps every bundle's concurrency occupancy. -/
theorem RecvMsg_concUsed (st : ServerState) (s : rateLimitServerStream) (p : Nat) :
    (heapGet (RecvMsg st s).state.heap p).concUsed = (heapGet st.heap p).concUsed := by
  unfold RecvMsg
  rcases hq : qpsAllow st s.limiter with ⟨b, st1⟩
  have := qpsAllow_concUsed st s.limiter p
  rw [hq] at this
  cases b <;> simpa using this

/-- A single decorated send keeps every bundle's concurrency occupancy. -/
theorem SendMsg_concUsed (st : ServerState) (s : rateLimitServerStream) (p : Nat) :
    (heapGet (SendMsg st s).state.heap p).concUsed = (heapGet st.heap p).concUsed := by
  unfold SendMsg
  rcases hq : qpsAllow st s.limiter with ⟨b, st1⟩
  have := qpsAllow_concUsed st s.limiter p
  rw [hq] at this
  cases b <;> simpa using this

/-- The message phase of a stream keeps the configuration. -/
theorem processOps_config (s : rateLimitServerStream) :
    ∀ (st : ServerState) (ops : List StreamOp),
      (processOps s st ops).state.config = st.config := by
  intro st ops
  induction ops generalizing st with
  | nil => rfl
  | cons op rest ih =>
      cases op with
      | recv => simpa [processOps] using (ih (RecvMsg st s).state).trans (RecvMsg_config st s)
      | send => simpa [processOps] using (ih (SendMsg st s).state).trans (SendMsg_config st s)

/-- The message phase of a stream never touches the global semaphore. -/
theorem processOps_globalUsed (s : rateLimitServerStream) :
    ∀ (st : ServerState) (ops : List StreamOp),
      (processOps s st ops).state.globalUsed = st.globalUsed := by
  intro st ops
  induction ops generalizing st with
  | nil => rfl
  | cons op rest ih =>
      cases op with
      | recv => simpa [processOps] using (ih (RecvMsg st s).state).trans (RecvMsg_globalUsed st s)
      | send => simpa [processOps] using (ih (SendMsg st s).state).trans (SendMsg_globalUsed st s)

/-- The message phase of a stream never touches any concurrency slot. -/
theorem processOps_concUsed (s : rateLimitServerStream) :
    ∀ (st : ServerState) (ops : List StreamOp) (p : Nat),
      (heapGet (processOps s st ops).state.heap p).concUsed = (heapGet st.heap p).concUsed := by
  intro st ops
  induction ops generalizing st with
  | nil => intro p; rfl
  | cons op rest ih =>
      intro p
      cases op with
      | recv => simpa [processOps] using (ih (RecvMsg st s).state p).trans (RecvMsg_concUsed st s p)
      | send => simpa [processOps] using (ih (SendMsg st s).state p).trans (SendMsg_concUsed st s p)

/-- Every message operation yields a step: a rejection never ends the
stream. -/
theorem processOps_steps_length (s : rateLimitServerStream) :
    ∀ (st : ServerState) (ops : List StreamOp),
      (processOps s st ops).steps.length = ops.length := by
  intro st ops
  induction ops generalizing st with
  | nil => rfl
  | cons op rest ih => cases op <;> simp [processOps, ih]


theorem processOps_steps_spec (s : rateLimitServerStream) :
    ∀ (st : ServerState) (ops : List StreamOp) (stp : MsgStep),
      stp ∈ (processOps s st ops).steps →
      (stp.error = none ∧ stp.transportInvoked = true) ∨
        (stp.transportInvoked = false ∧
          ((stp.op = .recv ∧ stp.error = some ⟨.Internal, gs "stream recv rate limit exceeded"⟩) ∨
           (stp.op = .send ∧ stp.error = some ⟨.Internal, gs "stream send rate limit exceeded"⟩))) := by
  intro st ops
  induction ops generalizing st with
  | nil => intro stp hstp; simp [processOps] at hstp
  | cons op rest ih =>
      intro stp hstp
      cases op with
      | recv =>
          simp only [processOps, List.mem_cons] at hstp
          rcases hstp with hstp | hstp
          · subst hstp
            unfold RecvMsg
            rcases hq : qpsAllow st s.limiter with ⟨b, st1⟩
            cases b
            · right
              simp [hq]
            · left
              simp [hq]
          · exact ih (RecvMsg st s).state stp hstp
      | send =>
          simp only [processOps, List.mem_cons] at hstp
          rcases hstp with hstp | hstp
          · subst hstp
            unfold SendMsg
            rcases hq : qpsAllow st s.limiter with ⟨b, st1⟩
            cases b
            · right
              simp [hq]
            · left
              simp [hq]
          · exact ih (SendMsg st s).state stp hstp

theorem processOps_transport_count (s : rateLimitServerStream) :
    ∀ (st : ServerState) (ops : List StreamOp),
      ((processOps s st ops).steps.filter (fun stp => stp.transportInvoked)).length =
        min ops.length (heapGet st.heap s.limiter).qpsTokens := by
  intro st ops
  induction ops generalizing st with
  | nil => simp [processOps]
  | cons op rest ih =>
      rcases htok : (heapGet st.heap s.limiter).qpsTokens with _ | k
      · have hfail := @qpsAllow_zero st s.limiter htok
        cases op with
        | recv => simp [processOps, RecvMsg, hfail, ih, htok]
        | send => simp [processOps, SendMsg, hfail, ih, htok]
      · have hpos : 0 < (heapGet st.heap s.limiter).qpsTokens := by omega
        have hsucc := @qpsAllow_pos st s.limiter hpos
        have hlive : s.limiter < st.heap.length := lt_length_of_qpsTokens_pos hpos
        cases op with
        | recv =>
            simp [processOps, RecvMsg, hsucc, ih, htok, heapGet_heapSet_self, hlive,
              Nat.succ_min_succ]
        | send =>
            simp [processOps, SendMsg, hsucc, ih, htok, heapGet_heapSet_self, hlive,
              Nat.succ_min_succ]

/-- With a nil NATS connection no publish attempt is made. -/
theorem sendNats_none {cfg : RateLimiterConfig} (h : cfg.NatsConn = none)
    (ip method direction : GoStr) : sendNatsNotification cfg ip method direction = [] := by
  simp [sendNatsNotification, h]

/-- The global try-acquire never changes the configuration. -/
theorem acquireGlobal_snd_config (st : ServerState) :
    ((acquireGlobal st).2).config = st.config := by
  unfold acquireGlobal; split <;> rfl

/-- The message phase makes no publish attempt when no NATS connection is
configured. -/
theorem processOps_notes_none (s : rateLimitServerStream) :
    ∀ (st : ServerState) (ops : List StreamOp), st.config.NatsConn = none →
      (processOps s st ops).notes = [] := by
  intro st ops
  induction ops generalizing st with
  | nil => intro _; rfl
  | cons op rest ih =>
      intro hnone
      cases op with
      | recv =>
          have hcfg : (RecvMsg st s).state.config = st.config := RecvMsg_config st s
          have hrec : (RecvMsg st s).notes = [] := by
            unfold RecvMsg
            rcases hq : qpsAllow st s.limiter with ⟨b, st1⟩
            have h1 : st1.config = st.config := by
              have := qpsAllow_config st s.limiter
              rw [hq] at this
              exact this
            cases b
            · simp [sendNats_none (show st1.config.NatsConn = none by rw [h1]; exact hnone)]
            · simp
          simp [processOps, hrec, ih (RecvMsg st s).state (hcfg ▸ hnone)]
      | send =>
          have hcfg : (SendMsg st s).state.config = st.config := SendMsg_config st s
          have hrec : (SendMsg st s).notes = [] := by
            unfold SendMsg
            rcases hq : qpsAllow st s.limiter with ⟨b, st1⟩
            have h1 : st1.config = st.config := by
              have := qpsAllow_config st s.limiter
              rw [hq] at this
              exact this
            cases b
            · simp [sendNats_none (show st1.config.NatsConn = none by rw [h1]; exact hnone)]
            · simp
          simp [processOps, hrec, ih (SendMsg st s).state (hcfg ▸ hnone)]

/-- From an empty pool of capacity at least the number of attempts, every
iterated global try-acquire succeeds. -/
theorem acquireN_all (k : Nat) : ∀ st : ServerState,
    st.globalUsed + k ≤ st.globalCap →
    acquireN st k = ({ st with globalUsed := st.globalUsed + k }, true) := by
  induction k with
  | zero => intro st _; simp [acquireN]
  | succ n ih =>
      intro st h
      have hlt : st.globalUsed < st.globalCap := by omega
      have h2 : ({ st with globalUsed := st.globalUsed + 1 } : ServerState).globalUsed + n ≤
          ({ st with globalUsed := st.globalUsed + 1 } : ServerState).globalCap := by
        simp; omega
      simp only [acquireN, acquireGlobal_pos hlt, ih _ h2]
      simp
      omega

/-- Length-guarded agreement of a leading segment is the same as being a
leading segment (the Go slicing idiom versus the claim's wording). -/
theorem take_eq_iff_append : ∀ (p m : GoStr),
    (p.length ≤ m.length ∧ m.take p.length = p) ↔ ∃ t, m = p ++ t := by
  intro p
  induction p with
  | nil => intro m; simp
  | cons a p' ih =>
      intro m
      cases m with
      | nil => simp
      | cons b m' =>
          simp only [List.length_cons, Nat.add_le_add_iff_right, List.take_succ_cons,
            List.cons_append, List.cons.injEq]
          rw [show (∃ t, b = a ∧ m' = p' ++ t) ↔ b = a ∧ ∃ t, m' = p' ++ t by
            constructor
            · rintro ⟨t, h1, h2⟩; exact ⟨h1, t, h2⟩
            · rintro ⟨h1, t, h2⟩; exact ⟨t, h1, h2⟩]
          rw [← ih m']
          tauto

/-- The code-side bypass test agrees with the claim's wording of the rule. -/
theorem isBypass_iff (patterns : List GoStr) (method : GoStr) :
    isBypassMethod patterns method = true ↔ bypassSpec patterns method := by
  unfold isBypassMethod bypassSpec
  rw [List.any_eq_true]
  constructor
  · rintro ⟨p, hp, hcond⟩
    refine ⟨p, hp, ?_⟩
    simp only [Bool.or_eq_true, Bool.and_eq_true, beq_iff_eq, decide_eq_true_eq,
      Bool.not_eq_true', List.isEmpty_eq_false] at hcond
    rcases hcond with h | ⟨⟨⟨_, hlast⟩, hlen⟩, htake⟩
    · exact Or.inl h
    · exact Or.inr ⟨hlast, (take_eq_iff_append _ _).1 ⟨hlen, htake⟩⟩
  · rintro ⟨p, hp, h | ⟨hlast, hlead⟩⟩
    · exact ⟨p, hp, by simp [h]⟩
    · refine ⟨p, hp, ?_⟩
      have hne : p ≠ [] := by
        intro he; subst he; simp at hlast
      rcases (take_eq_iff_append p.dropLast method).2 hlead with ⟨hlen, htake⟩
      simp only [Bool.or_eq_true, Bool.and_eq_true, beq_iff_eq, decide_eq_true_eq,
        Bool.not_eq_true', List.isEmpty_eq_false]
      exact Or.inr ⟨⟨⟨hne, hlast⟩, hlen⟩, htake⟩

/-- The global try-acquire ignores the configured publisher. -/
theorem acquireGlobal_setPub (st : ServerState) (p : Option Nat) :
    acquireGlobal (setPub st p) = ((acquireGlobal st).1, setPub (acquireGlobal st).2 p) := by
  unfold acquireGlobal setPub
  by_cases h : st.globalUsed < st.globalCap <;> simp [h]

/-- Bundle fetch/creation ignores the configured publisher. -/
theorem getLimiter_setPub (st : ServerState) (p : Option Nat) (key : GoStr) :
    getLimiter (setPub st p) key = ((getLimiter st key).1, setPub (getLimiter st key).2 p) := by
  unfold getLimiter setPub
  cases mapLookup st.limiterMap key <;> simp [newBundle]

/-- The token-bucket decision ignores the configured publisher. -/
theorem qpsAllow_setPub (st : ServerState) (p : Option Nat) (ptr : Nat) :
    qpsAllow (setPub st p) ptr = ((qpsAllow st ptr).1, setPub (qpsAllow st ptr).2 p) := by
  unfold qpsAllow setPub
  by_cases h : 0 < (heapGet st.heap ptr).qpsTokens <;> simp [h]

/-- The per-key concurrency decision ignores the configured publisher. -/
theorem concTryAcquire_setPub (st : ServerState) (p : Option Nat) (ptr : Nat) :
    concTryAcquire (setPub st p) ptr =
      ((concTryAcquire st ptr).1, setPub (concTryAcquire st ptr).2 p) := by
  unfold concTryAcquire setPub
  by_cases h : (heapGet st.heap ptr).concUsed < (heapGet st.heap ptr).concCap <;> simp [h]

/-- The caller-visible decision of the unary gate is independent of the
configured publisher. -/
theorem unary_result_setPub (st : ServerState) (ip method : GoStr) (h : HandlerBehavior)
    (p : Option Nat) :
    (UnaryRateLimitInterceptor (setPub st p) ip method h).result =
      (UnaryRateLimitInterceptor st ip method h).result := by
  unfold UnaryRateLimitInterceptor
  have hbp : (setPub st p).config.BypassPatterns = st.config.BypassPatterns := rfl
  rw [hbp]
  by_cases hb : isBypassMethod st.config.BypassPatterns method = true
  · simp [hb]
  · simp only [hb, if_false, Bool.false_eq_true]
    rw [acquireGlobal_setPub]
    rcases hg : acquireGlobal st with ⟨gb, st1⟩
    cases gb
    · simp
    · simp only []
      rw [getLimiter_setPub]
      rcases hge : getLimiter st1 (ip ++ ['|'] ++ method) with ⟨ptr, st2⟩
      simp only []
      rw [qpsAllow_setPub]
      rcases hq : qpsAllow st2 ptr with ⟨qb, st3⟩
      cases qb
      · simp
      · simp only []
        rw [concTryAcquire_setPub]
        rcases hc : concTryAcquire st3 ptr with ⟨cb, st4⟩
        cases cb <;> simp

/-- With a nil NATS connection the unary gate makes no publish attempt. -/
theorem unary_notes_none (st : ServerState) (ip method : GoStr) (h : HandlerBehavior)
    (hnone : st.config.NatsConn = none) :
    (UnaryRateLimitInterceptor st ip method h).notes = [] := by
  unfold UnaryRateLimitInterceptor
  by_cases hb : isBypassMethod st.config.BypassPatterns method = true
  · simp [hb]
  · simp only [hb, if_false, Bool.false_eq_true]
    rcases hg : acquireGlobal st with ⟨gb, st1⟩
    have h1 : st1.config = st.config := by
      have := acquireGlobal_snd_config st
      rw [hg] at this
      exact this
    cases gb
    · simp [sendNats_none (show st1.config.NatsConn = none by rw [h1]; exact hnone)]
    · simp only []
      rcases hge : getLimiter st1 (ip ++ ['|'] ++ method) with ⟨ptr, st2⟩
      have h2 : st2.config = st.config := by
        have := getLimiter_config st1 (ip ++ ['|'] ++ method)
        rw [hge] at this
        rw [this, h1]
      simp only []
      rcases hq : qpsAllow st2 ptr with ⟨qb, st3⟩
      have h3 : st3.config = st.config := by
        have := qpsAllow_config st2 ptr
        rw [hq] at this
        rw [this, h2]
      cases qb
      · simp [sendNats_none (show st3.config.NatsConn = none by rw [h3]; exact hnone)]
      · simp only []
        rcases hc : concTryAcquire st3 ptr with ⟨cb, st4⟩
        have h4 : st4.config = st.config := by
          have := concTryAcquire_config st3 ptr
          rw [hc] at this
          rw [this, h3]
        cases cb
        · simp [sendNats_none (show st4.config.NatsConn = none by rw [h4]; exact hnone)]
        · simp

/-- With a nil NATS connection the stream gate makes no publish attempt,
not even for per-message rejections. -/
theorem stream_notes_none (st : ServerState) (ip method : GoStr) (ops : List StreamOp)
    (hend : HandlerBehavior) (hnone : st.config.NatsConn = none) :
    (StreamRateLimitInterceptor st ip method ops hend).notes = [] := by
  unfold StreamRateLimitInterceptor
  by_cases hb : isBypassMethod st.config.BypassPatterns method = true
  · simp [hb]
  · simp only [hb, if_false, Bool.false_eq_true]
    rcases hg : acquireGlobal st with ⟨gb, st1⟩
    have h1 : st1.config = st.config := by
      have := acquireGlobal_snd_config st
      rw [hg] at this
      exact this
    cases gb
    · simp [sendNats_none (show st1.config.NatsConn = none by rw [h1]; exact hnone)]
    · simp only []
      rcases hge : getLimiter st1 (ip ++ ['|'] ++ method) with ⟨ptr, st2⟩
      have h2 : st2.config = st.config := by
        have := getLimiter_config st1 (ip ++ ['|'] ++ method)
        rw [hge] at this
        rw [this, h1]
      simp only []
      rcases hc : concTryAcquire st2 ptr with ⟨cb, st3⟩
      have h3 : st3.config = st.config := by
        have := concTryAcquire_config st2 ptr
        rw [hc] at this
        rw [this, h2]
      cases cb
      · simp [sendNats_none (show st3.config.NatsConn = none by rw [h3]; exact hnone)]
      · simp [processOps_notes_none _ _ _ (show st3.config.NatsConn = none by rw [h3]; exact hnone)]

/-- C1 counterexample: the claim that every limiting rejection carries status
code ResourceExhausted is false — with the global pool full, the unary gate
rejects with status code Internal ("server busy"). -/
theorem C1_counterexample :
    ¬ (∀ (st : ServerState) (ip method : GoStr) (h : HandlerBehavior) (e : GrpcError),
        (UnaryRateLimitInterceptor st ip method h).result = CallResult.rejected e →
        e.code = GrpcCode.ResourceExhausted) := by
  intro hcl
  have h1 := hcl stFullGlobal ipA methodA .ok ⟨.Internal, gs "server busy"⟩ (by decide)
  exact absurd h1 (by decide)

/-- C1 (amended): every rejection produced by a limiting layer carries status
code Internal, with a reason string identifying the rejecting layer (global
pool: "server busy"; unary token bucket: "rate limit exceeded"; unary
concurrency: "too many concurrent requests"; stream concurrency: "too many
concurrent streams"; per-message: the direction-specific stream messages). -/
theorem C1_rejection_codes (st : ServerState) (ip method : GoStr) (h : HandlerBehavior)
    (ops : List StreamOp) (hend : HandlerBehavior) (s : rateLimitServerStream) (e : GrpcError) :
    ((UnaryRateLimitInterceptor st ip method h).result = .rejected e →
        e.code = .Internal ∧
        (e.msg = gs "server busy" ∨ e.msg = gs "rate limit exceeded" ∨
          e.msg = gs "too many concurrent requests")) ∧
    ((StreamRateLimitInterceptor st ip method ops hend).result = .rejected e →
        e.code = .Internal ∧
        (e.msg = gs "server busy" ∨ e.msg = gs "too many concurrent streams")) ∧
    ((RecvMsg st s).error = some e →
        e = ⟨.Internal, gs "stream recv rate limit exceeded"⟩) ∧
    ((SendMsg st s).error = some e →
        e = ⟨.Internal, gs "stream send rate limit exceeded"⟩) := by
  refine ⟨?_, ?_, ?_, ?_⟩
  · intro hre
    unfold UnaryRateLimitInterceptor at hre
    by_cases hb : isBypassMethod st.config.BypassPatterns method = true
    · simp only [hb, if_true] at hre
      cases h <;> simp [handlerOutcome] at hre
    · simp only [hb, if_false, Bool.false_eq_true] at hre
      rcases hg : acquireGlobal st with ⟨gb, st1⟩
      rw [hg] at hre
      cases gb
      · simp at hre
        subst hre
        exact ⟨rfl, Or.inl rfl⟩
      · simp only [] at hre
        rcases hge : getLimiter st1 (ip ++ ['|'] ++ method) with ⟨ptr, st2⟩
        rw [hge] at hre
        rcases hq : qpsAllow st2 ptr with ⟨qb, st3⟩
        rw [hq] at hre
        cases qb
        · simp at hre
          subst hre
          exact ⟨rfl, Or.inr (Or.inl rfl)⟩
        · simp only [] at hre
          rcases hc : concTryAcquire st3 ptr with ⟨cb, st4⟩
          rw [hc] at hre
          cases cb
          · simp at hre
            subst hre
            exact ⟨rfl, Or.inr (Or.inr rfl)⟩
          · simp at hre
            cases h <;> simp [handlerOutcome] at hre
  · intro hre
    unfold StreamRateLimitInterceptor at hre
    by_cases hb : isBypassMethod st.config.BypassPatterns method = true
    · simp only [hb, if_true] at hre
      cases hend <;> simp [handlerOutcome] at hre
    · simp only [hb, if_false, Bool.false_eq_true] at hre
      rcases hg : acquireGlobal st with ⟨gb, st1⟩
      rw [hg] at hre
      cases gb
      · simp at hre
        subst hre
        exact ⟨rfl, Or.inl rfl⟩
      · simp only [] at hre
        rcases hge : getLimiter st1 (ip ++ ['|'] ++ method) with ⟨ptr, st2⟩
        rw [hge] at hre
        rcases hc : concTryAcquire st2 ptr with ⟨cb, st3⟩
        rw [hc] at hre
        cases cb
        · simp at hre
          subst hre
          exact ⟨rfl, Or.inr rfl⟩
        · simp at hre
          cases hend <;> simp [handlerOutcome] at hre
  · intro hre
    unfold RecvMsg at hre
    rcases hq : qpsAllow st s.limiter with ⟨qb, st1⟩
    rw [hq] at hre
    cases qb
    · simp at hre
      exact hre.symm
    · simp at hre
  · intro hre
    unfold SendMsg at hre
    rcases hq : qpsAllow st s.limiter with ⟨qb, st1⟩
    rw [hq] at hre
    cases qb
    · simp at hre
      exact hre.symm
    · simp at hre

/-- C1 witness: with the global pool full, the unary gate rejects and the
amended statement yields code Internal with the global layer's reason. -/
theorem C1_witness :
    (UnaryRateLimitInterceptor stFullGlobal ipA methodA .ok).result =
        .rejected ⟨.Internal, gs "server busy"⟩ ∧
      (GrpcError.mk .Internal (gs "server busy")).code = .Internal :=
  ⟨by decide,
    ((C1_rejection_codes stFullGlobal ipA methodA .ok [] .ok ⟨methodA, ipA, 0⟩
      ⟨.Internal, gs "server busy"⟩).1 (by decide)).1⟩

/-- C2 counterexample: the claim that a handler panic is recovered and
converted into an error is false — on an admitted call whose handler panics,
the interceptor propagates the panic instead of returning an error. -/
theorem C2_counterexample :
    ¬ (∀ (st : ServerState) (ip method : GoStr),
        (UnaryRateLimitInterceptor st ip method .panics).handlerInvoked = true →
        (UnaryRateLimitInterceptor st ip method .panics).result ≠ CallResult.panicked) := by
  intro hcl
  exact absurd (by decide : (UnaryRateLimitInterceptor stIdle ipA methodA .panics).result =
    CallResult.panicked) (hcl stIdle ipA methodA (by decide))

/-- C2 (amended): when the downstream handler of an admitted unary call
panics, the interceptor does not recover it — the panic propagates to the
caller with no error conversion — but the deferred releases still run: both
the global slot and the per-key concurrency slot are released before the
panic propagates (acquisition counts match release counts, the global
occupancy returns to its pre-call value, and the key's concurrency occupancy
returns to its pre-call value). -/
theorem C2_panic_path (st : ServerState) (ip method : GoStr) (ptr : Nat) (st2 : ServerState)
    (hby : isBypassMethod st.config.BypassPatterns method = false)
    (hglob : st.globalUsed < st.globalCap)
    (hget : getLimiter { st with globalUsed := st.globalUsed + 1 }
      (ip ++ ['|'] ++ method) = (ptr, st2))
    (htok : 0 < (heapGet st2.heap ptr).qpsTokens)
    (hconc : (heapGet st2.heap ptr).concUsed < (heapGet st2.heap ptr).concCap) :
    (UnaryRateLimitInterceptor st ip method .panics).result = .panicked ∧
    (UnaryRateLimitInterceptor st ip method .panics).handlerInvoked = true ∧
    (UnaryRateLimitInterceptor st ip method .panics).globalAcq = 1 ∧
    (UnaryRateLimitInterceptor st ip method .panics).globalRel = 1 ∧
    (UnaryRateLimitInterceptor st ip method .panics).concAcq = 1 ∧
    (UnaryRateLimitInterceptor st ip method .panics).concRel = 1 ∧
    (UnaryRateLimitInterceptor st ip method .panics).state.globalUsed = st.globalUsed ∧
    (heapGet (UnaryRateLimitInterceptor st ip method .panics).state.heap ptr).concUsed =
      (heapGet st2.heap ptr).concUsed := by
  have hga := acquireGlobal_pos hglob
  have hlive : ptr < st2.heap.length := lt_length_of_qpsTokens_pos htok
  have hq := @qpsAllow_pos st2 ptr htok
  have hu2 : st2.globalUsed = st.globalUsed + 1 := by
    have := getLimiter_globalUsed ({ st with globalUsed := st.globalUsed + 1 }) (ip ++ ['|'] ++ method)
    rw [hget] at this
    simpa using this
  unfold UnaryRateLimitInterceptor
  simp only [hby, if_false, Bool.false_eq_true, hga, hget, hq]
  set b := heapGet st2.heap ptr with hbdef
  set b1 : limiterBundle := { b with qpsTokens := b.qpsTokens - 1 } with hb1
  set st3 : ServerState := { st2 with heap := heapSet st2.heap ptr b1 } with hst3
  have hget3 : heapGet st3.heap ptr = b1 := heapGet_heapSet_self _ _ _ hlive
  have hconc3 : (heapGet st3.heap ptr).concUsed < (heapGet st3.heap ptr).concCap := by
    rw [hget3]
    exact hconc
  have hc := @concTryAcquire_pos st3 ptr hconc3
  simp only [hc]
  have hlive3 : ptr < st3.heap.length := by
    have : st3.heap.length = st2.heap.length := heapSet_length _ _ _
    omega
  set b2 : limiterBundle := { heapGet st3.heap ptr with concUsed := (heapGet st3.heap ptr).concUsed + 1 } with hb2
  set st4 : ServerState := { st3 with heap := heapSet st3.heap ptr b2 } with hst4
  have hget4 : heapGet st4.heap ptr = b2 := heapGet_heapSet_self _ _ _ hlive3
  have hlive4 : ptr < st4.heap.length := by
    have : st4.heap.length = st3.heap.length := heapSet_length _ _ _
    omega
  refine ⟨rfl, trivial, trivial, trivial, trivial, trivial, ?_, ?_⟩
  · simp [concRelease, releaseGlobal, hst4, hst3, hu2]
  · simp only [releaseGlobal, concRelease]
    rw [heapGet_heapSet_self _ _ _ hlive4, hget4]
    simp [hb2, hget3, hb1]

/-- C2 witness: on the idle state the call is admitted, the handler's panic
propagates, and both slots are back to their pre-call occupancy. -/
theorem C2_witness :
    isBypassMethod stIdle.config.BypassPatterns methodA = false ∧
    stIdle.globalUsed < stIdle.globalCap ∧
    (UnaryRateLimitInterceptor stIdle ipA methodA .panics).result = .panicked ∧
    (UnaryRateLimitInterceptor stIdle ipA methodA .panics).state.globalUsed =
      stIdle.globalUsed :=
  ⟨by decide, by decide,
    (C2_panic_path stIdle ipA methodA 0
      ⟨DefaultRateLimiterConfig, 1, 1, [newBundle DefaultRateLimiterConfig], [(ipA ++ ['|'] ++ methodA, 0)]⟩
      (by decide) (by decide) (by decide) (by decide) (by decide)).1,
    ((((((C2_panic_path stIdle ipA methodA 0
      ⟨DefaultRateLimiterConfig, 1, 1, [newBundle DefaultRateLimiterConfig], [(ipA ++ ['|'] ++ methodA, 0)]⟩
      (by decide) (by decide) (by decide) (by decide) (by decide)).2).2).2).2).2).2.1⟩

/-- C3: the non-bypassed unary pipeline evaluates global try-acquire, then
the per-key token bucket, then the per-key concurrency try-acquire, then the
handler. A global failure rejects with no per-key state touched (the whole
observable record, including registry and heap, is unchanged); a token or
concurrency failure releases the held global slot (occupancy returns to the
pre-call value) without invoking the handler; when all checks pass the
handler runs. -/
theorem C3_unary_order (st : ServerState) (ip method : GoStr) (h : HandlerBehavior)
    (hby : isBypassMethod st.config.BypassPatterns method = false) :
    (st.globalCap ≤ st.globalUsed →
      UnaryRateLimitInterceptor st ip method h =
        { result := .rejected ⟨.Internal, gs "server busy"⟩, state := st,
          metrics := [(gs "global", gs "unary")],
          notes := sendNatsNotification st.config ip method (gs "unary_global_concurrent"),
          handlerInvoked := false, globalAcq := 0, globalRel := 0, concAcq := 0, concRel := 0 }) ∧
    (∀ (ptr : Nat) (st2 : ServerState), st.globalUsed < st.globalCap →
      getLimiter { st with globalUsed := st.globalUsed + 1 } (ip ++ ['|'] ++ method) =
        (ptr, st2) →
      (((heapGet st2.heap ptr).qpsTokens = 0 →
          (UnaryRateLimitInterceptor st ip method h).result =
              .rejected ⟨.Internal, gs "rate limit exceeded"⟩ ∧
          (UnaryRateLimitInterceptor st ip method h).handlerInvoked = false ∧
          (UnaryRateLimitInterceptor st ip method h).globalAcq = 1 ∧
          (UnaryRateLimitInterceptor st ip method h).globalRel = 1 ∧
          (UnaryRateLimitInterceptor st ip method h).state.globalUsed = st.globalUsed) ∧
       (0 < (heapGet st2.heap ptr).qpsTokens →
          (heapGet st2.heap ptr).concCap ≤ (heapGet st2.heap ptr).concUsed →
          (UnaryRateLimitInterceptor st ip method h).result =
              .rejected ⟨.Internal, gs "too many concurrent requests"⟩ ∧
          (UnaryRateLimitInterceptor st ip method h).handlerInvoked = false ∧
          (UnaryRateLimitInterceptor st ip method h).globalAcq = 1 ∧
          (UnaryRateLimitInterceptor st ip method h).globalRel = 1 ∧
          (UnaryRateLimitInterceptor st ip method h).state.globalUsed = st.globalUsed) ∧
       (0 < (heapGet st2.heap ptr).qpsTokens →
          (heapGet st2.heap ptr).concUsed < (heapGet st2.heap ptr).concCap →
          (UnaryRateLimitInterceptor st ip method h).result = handlerOutcome h ∧
          (UnaryRateLimitInterceptor st ip method h).handlerInvoked = true))) := by
  constructor
  · intro hfull
    have hga := acquireGlobal_neg (show ¬ st.globalUsed < st.globalCap by omega)
    unfold UnaryRateLimitInterceptor
    simp [hby, hga]
  · intro ptr st2 hglob hget
    simp only [List.append_assoc, List.singleton_append] at hget
    have hga := acquireGlobal_pos hglob
    have hu2 : st2.globalUsed = st.globalUsed + 1 := by
      have := getLimiter_globalUsed ({ st with globalUsed := st.globalUsed + 1 })
        (ip ++ '|' :: method)
      rw [hget] at this
      simpa using this
    refine ⟨?_, ?_, ?_⟩
    · intro htok
      have hq := @qpsAllow_zero st2 ptr htok
      unfold UnaryRateLimitInterceptor
      simp [hby, hga, hget, hq, releaseGlobal, hu2]
    · intro htok hcfull
      have hq := @qpsAllow_pos st2 ptr htok
      have hlive : ptr < st2.heap.length := lt_length_of_qpsTokens_pos htok
      have hget3 : heapGet (heapSet st2.heap ptr ({ qpsTokens := (heapGet st2.heap ptr).qpsTokens - 1, concUsed := (heapGet st2.heap ptr).concUsed, concCap := (heapGet st2.heap ptr).concCap })) ptr = { qpsTokens := (heapGet st2.heap ptr).qpsTokens - 1, concUsed := (heapGet st2.heap ptr).concUsed, concCap := (heapGet st2.heap ptr).concCap } :=
        heapGet_heapSet_self _ _ _ hlive
      have hc := @concTryAcquire_neg
        ({ st2 with heap := heapSet st2.heap ptr ({ qpsTokens := (heapGet st2.heap ptr).qpsTokens - 1, concUsed := (heapGet st2.heap ptr).concUsed, concCap := (heapGet st2.heap ptr).concCap }) })
        ptr (by simp only [hget3]; simp; omega)
      unfold UnaryRateLimitInterceptor
      simp only [hby, Bool.false_eq_true, if_false, List.append_assoc, List.singleton_append, hga, hget, hq]
      simp only [hc]
      simp [releaseGlobal, hu2]
    · intro htok hcok
      have hq := @qpsAllow_pos st2 ptr htok
      have hlive : ptr < st2.heap.length := lt_length_of_qpsTokens_pos htok
      have hget3 : heapGet (heapSet st2.heap ptr ({ qpsTokens := (heapGet st2.heap ptr).qpsTokens - 1, concUsed := (heapGet st2.heap ptr).concUsed, concCap := (heapGet st2.heap ptr).concCap })) ptr = { qpsTokens := (heapGet st2.heap ptr).qpsTokens - 1, concUsed := (heapGet st2.heap ptr).concUsed, concCap := (heapGet st2.heap ptr).concCap } :=
        heapGet_heapSet_self _ _ _ hlive
      have hc := @concTryAcquire_pos
        ({ st2 with heap := heapSet st2.heap ptr ({ qpsTokens := (heapGet st2.heap ptr).qpsTokens - 1, concUsed := (heapGet st2.heap ptr).concUsed, concCap := (heapGet st2.heap ptr).concCap }) })
        ptr (by simp only [hget3]; omega)
      unfold UnaryRateLimitInterceptor
      simp only [hby, Bool.false_eq_true, if_false, List.append_assoc, List.singleton_append, hga, hget, hq]
      simp only [hc]
      simp

/-- C3 witness: on a state with a full global pool the unary gate rejects at
the global layer exactly as the order theorem states. -/
theorem C3_witness :
    isBypassMethod stFullGlobal.config.BypassPatterns methodA = false ∧
    stFullGlobal.globalCap ≤ stFullGlobal.globalUsed ∧
    UnaryRateLimitInterceptor stFullGlobal ipA methodA .ok =
      { result := .rejected ⟨.Internal, gs "server busy"⟩, state := stFullGlobal,
        metrics := [(gs "global", gs "unary")],
        notes := sendNatsNotification stFullGlobal.config ipA methodA
          (gs "unary_global_concurrent"),
        handlerInvoked := false, globalAcq := 0, globalRel := 0, concAcq := 0, concRel := 0 } :=
  ⟨by decide, by decide,
    (C3_unary_order stFullGlobal ipA methodA .ok (by decide)).1 (by decide)⟩

/-- C4: on every execution path of the unary and stream gates — bypass,
rejection at any stage, success, or handler panic — the number of
global-slot acquisitions equals the number of global-slot releases and the
number of per-key concurrency acquisitions equals the number of per-key
concurrency releases by the time the call or stream returns. -/
theorem C4_slot_balance :
    (∀ (st : ServerState) (ip method : GoStr) (h : HandlerBehavior),
      (UnaryRateLimitInterceptor st ip method h).globalAcq =
          (UnaryRateLimitInterceptor st ip method h).globalRel ∧
        (UnaryRateLimitInterceptor st ip method h).concAcq =
          (UnaryRateLimitInterceptor st ip method h).concRel) ∧
    (∀ (st : ServerState) (ip method : GoStr) (ops : List StreamOp) (hend : HandlerBehavior),
      (StreamRateLimitInterceptor st ip method ops hend).globalAcq =
          (StreamRateLimitInterceptor st ip method ops hend).globalRel ∧
        (StreamRateLimitInterceptor st ip method ops hend).concAcq =
          (StreamRateLimitInterceptor st ip method ops hend).concRel) := by
  constructor
  · intro st ip method h
    unfold UnaryRateLimitInterceptor
    by_cases hb : isBypassMethod st.config.BypassPatterns method = true
    · simp [hb]
    · simp only [hb, Bool.false_eq_true, if_false]
      rcases hg : acquireGlobal st with ⟨gb, st1⟩
      cases gb
      · simp
      · rcases hge : getLimiter st1 (ip ++ '|' :: method) with ⟨ptr, st2⟩
        rcases hq : qpsAllow st2 ptr with ⟨qb, st3⟩
        cases qb
        · simp [hge, hq]
        · rcases hc : concTryAcquire st3 ptr with ⟨cb, st4⟩
          cases cb <;> simp [hge, hq, hc]
  · intro st ip method ops hend
    unfold StreamRateLimitInterceptor
    by_cases hb : isBypassMethod st.config.BypassPatterns method = true
    · simp [hb]
    · simp only [hb, Bool.false_eq_true, if_false]
      rcases hg : acquireGlobal st with ⟨gb, st1⟩
      cases gb
      · simp
      · rcases hge : getLimiter st1 (ip ++ '|' :: method) with ⟨ptr, st2⟩
        rcases hc : concTryAcquire st2 ptr with ⟨cb, st3⟩
        cases cb <;> simp [hge, hc]

/-- C5: the global admission pool is non-blocking: a try-acquire succeeds
(taking one slot) whenever fewer than the capacity are outstanding, fails
immediately with the state unchanged when the pool is exactly full, and from
an empty pool of capacity N all N iterated acquisitions succeed while the
(N+1)-th, attempted with all N still outstanding, fails. -/
theorem C5_global_pool (st : ServerState) (N : Nat) (cfg : RateLimiterConfig)
    (hp : List limiterBundle) (lm : List (GoStr × Nat)) :
    (st.globalUsed < st.globalCap →
        acquireGlobal st = (true, { st with globalUsed := st.globalUsed + 1 })) ∧
    (st.globalUsed = st.globalCap → acquireGlobal st = (false, st)) ∧
    (acquireN ⟨cfg, 0, N, hp, lm⟩ N = (⟨cfg, N, N, hp, lm⟩, true) ∧
      acquireGlobal ⟨cfg, N, N, hp, lm⟩ = (false, ⟨cfg, N, N, hp, lm⟩)) := by
  refine ⟨fun h => acquireGlobal_pos h, fun h => acquireGlobal_neg (by omega), ?_, ?_⟩
  · have := acquireN_all N ⟨cfg, 0, N, hp, lm⟩ (by simp)
    simpa using this
  · exact acquireGlobal_neg (by simp)

/-- C5 witness: with room in the pool the acquire succeeds, and a pool of
capacity three admits exactly three concurrent acquisitions. -/
theorem C5_witness :
    stIdle.globalUsed < stIdle.globalCap ∧
    acquireGlobal stIdle = (true, { stIdle with globalUsed := stIdle.globalUsed + 1 }) ∧
    acquireN ⟨DefaultRateLimiterConfig, 0, 3, [], []⟩ 3 =
      (⟨DefaultRateLimiterConfig, 3, 3, [], []⟩, true) :=
  ⟨by decide,
    (C5_global_pool stIdle 3 DefaultRateLimiterConfig [] []).1 (by decide),
    ((C5_global_pool stIdle 3 DefaultRateLimiterConfig [] []).2.2).1⟩

/-- C6: the bypass check returns true exactly when some pattern equals the
operation name or some pattern ends in the wildcard marker and its stem
(the pattern minus the final star) leads the operation name; a bypassed
operation is passed straight to the handler with no slot acquisition, no
token consumption, no metric increment and no notification (the entire
observable record shows no effect beyond the handler's own outcome). -/
theorem C6_bypass (st : ServerState) (ip method : GoStr) (h : HandlerBehavior)
    (ops : List StreamOp) (hend : HandlerBehavior) :
    (isBypassMethod st.config.BypassPatterns method = true ↔
        bypassSpec st.config.BypassPatterns method) ∧
    (isBypassMethod st.config.BypassPatterns method = true →
      UnaryRateLimitInterceptor st ip method h =
        { result := handlerOutcome h, state := st, metrics := [], notes := [],
          handlerInvoked := true, globalAcq := 0, globalRel := 0, concAcq := 0, concRel := 0 } ∧
      StreamRateLimitInterceptor st ip method ops hend =
        { result := handlerOutcome hend, state := st,
          steps := ops.map fun op => ⟨op, none, true⟩,
          metrics := [], notes := [], handlerInvoked := true,
          globalAcq := 0, globalRel := 0, concAcq := 0, concRel := 0,
          wrappedLimiter := none }) := by
  refine ⟨isBypass_iff _ _, fun hb => ⟨?_, ?_⟩⟩
  · unfold UnaryRateLimitInterceptor
    simp [hb]
  · unfold StreamRateLimitInterceptor
    simp [hb]

/-- C6 witness: the default health-check pattern matches exactly, and the
bypassed call reaches the handler with no bookkeeping at all. -/
theorem C6_witness :
    isBypassMethod stIdle.config.BypassPatterns (gs "/grpc.health.v1.Health/Check") = true ∧
    UnaryRateLimitInterceptor stIdle ipA (gs "/grpc.health.v1.Health/Check") .ok =
      { result := handlerOutcome .ok, state := stIdle, metrics := [], notes := [],
        handlerInvoked := true, globalAcq := 0, globalRel := 0, concAcq := 0, concRel := 0 } :=
  ⟨by decide,
    ((C6_bypass stIdle ipA (gs "/grpc.health.v1.Health/Check") .ok [] .ok).2 (by decide)).1⟩

/-- C7: a reconfiguration retains each numeric field that is not positive
and overwrites each positive one; a positive GlobalConcurrent additionally
replaces the global pool with a fresh empty pool of the new capacity; the
per-key registry is always cleared, so the very next fetch of any key
builds a fresh bundle whose full burst allowance (and empty concurrency
channel) is immediately available. -/
theorem C7_reconfig (st : ServerState) (req : RateLimiterConfig) (key : GoStr) :
    ((req.Rate ≤ 0 → (InitRateLimiterConfig st req).config.Rate = st.config.Rate) ∧
     (0 < req.Rate → (InitRateLimiterConfig st req).config.Rate = req.Rate)) ∧
    ((req.Burst ≤ 0 → (InitRateLimiterConfig st req).config.Burst = st.config.Burst) ∧
     (0 < req.Burst → (InitRateLimiterConfig st req).config.Burst = req.Burst)) ∧
    ((req.Concurrent ≤ 0 →
        (InitRateLimiterConfig st req).config.Concurrent = st.config.Concurrent) ∧
     (0 < req.Concurrent →
        (InitRateLimiterConfig st req).config.Concurrent = req.Concurrent)) ∧
    ((req.GlobalConcurrent ≤ 0 →
        (InitRateLimiterConfig st req).config.GlobalConcurrent = st.config.GlobalConcurrent ∧
        (InitRateLimiterConfig st req).globalCap = st.globalCap ∧
        (InitRateLimiterConfig st req).globalUsed = st.globalUsed) ∧
     (0 < req.GlobalConcurrent →
        (InitRateLimiterConfig st req).config.GlobalConcurrent = req.GlobalConcurrent ∧
        (InitRateLimiterConfig st req).globalCap = req.GlobalConcurrent.toNat ∧
        (InitRateLimiterConfig st req).globalUsed = 0)) ∧
    (InitRateLimiterConfig st req).limiterMap = [] ∧
    (∀ (ptr : Nat) (st2 : ServerState),
        getLimiter (InitRateLimiterConfig st req) key = (ptr, st2) →
        (heapGet st2.heap ptr).qpsTokens = (InitRateLimiterConfig st req).config.Burst.toNat ∧
        (heapGet st2.heap ptr).concUsed = 0) := by
  refine ⟨⟨?_, ?_⟩, ⟨?_, ?_⟩, ⟨?_, ?_⟩, ⟨?_, ?_⟩, rfl, ?_⟩
  · intro hr; simp [InitRateLimiterConfig, not_lt.2 hr]
  · intro hr; simp [InitRateLimiterConfig, hr]
  · intro hr; simp [InitRateLimiterConfig, not_lt.2 hr]
  · intro hr; simp [InitRateLimiterConfig, hr]
  · intro hr; simp [InitRateLimiterConfig, not_lt.2 hr]
  · intro hr; simp [InitRateLimiterConfig, hr]
  · intro hr
    refine ⟨?_, ?_, ?_⟩ <;> simp [InitRateLimiterConfig, not_lt.2 hr]
  · intro hr
    refine ⟨?_, ?_, ?_⟩ <;> simp [InitRateLimiterConfig, hr]
  · intro ptr st2 hget
    have hmap : mapLookup (InitRateLimiterConfig st req).limiterMap key = none := rfl
    unfold getLimiter at hget
    rw [hmap] at hget
    simp only [Prod.mk.injEq] at hget
    rcases hget with ⟨hptr, hst2⟩
    subst hptr
    subst hst2
    constructor
    · rw [show ((InitRateLimiterConfig st req).heap ++
          [newBundle (InitRateLimiterConfig st req).config] : List limiterBundle) =
          (InitRateLimiterConfig st req).heap ++
            [newBundle (InitRateLimiterConfig st req).config] from rfl]
      rw [heapGet_append_self]
      rfl
    · rw [heapGet_append_self]
      rfl

/-- C7 witness: a request with no positive field retains every numeric
value, and the first fetch after reconfiguration returns a full bucket. -/
theorem C7_witness :
    ((0 : Rat) ≤ 0 ∧
      (InitRateLimiterConfig stIdle
        ⟨0, 0, 0, 0, none, [], []⟩).config.Rate = stIdle.config.Rate) ∧
    (InitRateLimiterConfig stIdle ⟨0, 0, 0, 0, none, [], []⟩).limiterMap = [] :=
  ⟨⟨le_refl 0,
    ((C7_reconfig stIdle ⟨0, 0, 0, 0, none, [], []⟩ methodA).1).1 (le_refl 0)⟩,
    ((((((C7_reconfig stIdle ⟨0, 0, 0, 0, none, [], []⟩ methodA).2).2).2).2)).1⟩

/-- C8 counterexample: the claim that stream open performs the unary
pipeline's token-bucket check is false — on a state whose bundle for the
key has an empty bucket (where the unary gate would reject), the stream
gate still admits the stream and invokes the handler. -/
theorem C8_counterexample :
    ¬ (∀ (st : ServerState) (ip method : GoStr) (ops : List StreamOp)
        (hend : HandlerBehavior) (ptr : Nat) (st2 : ServerState),
        isBypassMethod st.config.BypassPatterns method = false →
        st.globalUsed < st.globalCap →
        getLimiter { st with globalUsed := st.globalUsed + 1 } (ip ++ ['|'] ++ method) =
          (ptr, st2) →
        (heapGet st2.heap ptr).qpsTokens = 0 →
        (StreamRateLimitInterceptor st ip method ops hend).handlerInvoked = false) := by
  intro hcl
  have h1 := hcl stTokensGone ipA methodA [] .ok 0
    ({ stTokensGone with globalUsed := 1 }) (by decide) (by decide) (by decide) (by decide)
  exact absurd h1 (by decide)

/-- C8 (amended): on a non-bypassed stream open the gate performs the global
try-acquire, the per-key bundle fetch and the per-key concurrency
try-acquire — steps 2, 3 and 5 of the unary pipeline, with no token-bucket
check at open — holding both slots for the whole connection; on success the
decorator holds exactly the bundle pointer the fetch returned, and every
receive and send draws from that one shared token bucket, so the number of
messages reaching the transport is the operation count capped by the tokens
present at admission. -/
theorem C8_stream_open (st : ServerState) (ip method : GoStr) (ops : List StreamOp)
    (hend : HandlerBehavior)
    (hby : isBypassMethod st.config.BypassPatterns method = false) :
    (st.globalCap ≤ st.globalUsed →
      StreamRateLimitInterceptor st ip method ops hend =
        { result := .rejected ⟨.Internal, gs "server busy"⟩, state := st,
          steps := [], metrics := [(gs "global", gs "stream")],
          notes := sendNatsNotification st.config ip method (gs "stream_global_concurrent"),
          handlerInvoked := false, globalAcq := 0, globalRel := 0, concAcq := 0, concRel := 0,
          wrappedLimiter := none }) ∧
    (∀ (ptr : Nat) (st2 : ServerState), st.globalUsed < st.globalCap →
      getLimiter { st with globalUsed := st.globalUsed + 1 } (ip ++ ['|'] ++ method) =
        (ptr, st2) →
      (((heapGet st2.heap ptr).concCap ≤ (heapGet st2.heap ptr).concUsed →
          (StreamRateLimitInterceptor st ip method ops hend).result =
              .rejected ⟨.Internal, gs "too many concurrent streams"⟩ ∧
          (StreamRateLimitInterceptor st ip method ops hend).handlerInvoked = false ∧
          (StreamRateLimitInterceptor st ip method ops hend).globalAcq = 1 ∧
          (StreamRateLimitInterceptor st ip method ops hend).globalRel = 1 ∧
          (StreamRateLimitInterceptor st ip method ops hend).state.globalUsed =
            st.globalUsed) ∧
       ((heapGet st2.heap ptr).concUsed < (heapGet st2.heap ptr).concCap →
          (StreamRateLimitInterceptor st ip method ops hend).wrappedLimiter = some ptr ∧
          (StreamRateLimitInterceptor st ip method ops hend).handlerInvoked = true ∧
          (StreamRateLimitInterceptor st ip method ops hend).result = handlerOutcome hend ∧
          (StreamRateLimitInterceptor st ip method ops hend).globalAcq = 1 ∧
          (StreamRateLimitInterceptor st ip method ops hend).globalRel = 1 ∧
          (StreamRateLimitInterceptor st ip method ops hend).concAcq = 1 ∧
          (StreamRateLimitInterceptor st ip method ops hend).concRel = 1 ∧
          ((StreamRateLimitInterceptor st ip method ops hend).steps.filter
              (fun stp => stp.transportInvoked)).length =
            min ops.length (heapGet st2.heap ptr).qpsTokens))) := by
  constructor
  · intro hfull
    have hga := acquireGlobal_neg (show ¬ st.globalUsed < st.globalCap by omega)
    unfold StreamRateLimitInterceptor
    simp [hby, hga]
  · intro ptr st2 hglob hget
    simp only [List.append_assoc, List.singleton_append] at hget
    have hga := acquireGlobal_pos hglob
    have hu2 : st2.globalUsed = st.globalUsed + 1 := by
      have := getLimiter_globalUsed ({ st with globalUsed := st.globalUsed + 1 })
        (ip ++ '|' :: method)
      rw [hget] at this
      simpa using this
    constructor
    · intro hcfull
      have hc := @concTryAcquire_neg st2 ptr (by omega)
      unfold StreamRateLimitInterceptor
      simp only [hby, Bool.false_eq_true, if_false, List.append_assoc, List.singleton_append, hga, hget]
      simp only [hc]
      simp [releaseGlobal, hu2]
    · intro hcok
      have hc := @concTryAcquire_pos st2 ptr hcok
      have hlive : ptr < st2.heap.length := lt_length_of_concCap_pos hcok
      have htoks : (heapGet (heapSet st2.heap ptr
          ({ qpsTokens := (heapGet st2.heap ptr).qpsTokens,
             concUsed := (heapGet st2.heap ptr).concUsed + 1,
             concCap := (heapGet st2.heap ptr).concCap })) ptr).qpsTokens =
          (heapGet st2.heap ptr).qpsTokens := by
        rw [heapGet_heapSet_self _ _ _ hlive]
      unfold StreamRateLimitInterceptor
      simp only [hby, Bool.false_eq_true, if_false, List.append_assoc, List.singleton_append, hga, hget]
      simp only [hc]
      refine ⟨by simp, by simp, by simp, by simp, by simp, by simp, by simp, ?_⟩
      rw [processOps_transport_count]
      simp [htoks]

/-- C8 witness: on the exhausted-bucket state the stream is admitted, the
decorator shares bundle pointer 0, and with zero tokens none of the two
message operations reaches the transport. -/
theorem C8_witness :
    isBypassMethod stTokensGone.config.BypassPatterns methodA = false ∧
    stTokensGone.globalUsed < stTokensGone.globalCap ∧
    (StreamRateLimitInterceptor stTokensGone ipA methodA [.recv, .send] .ok).wrappedLimiter =
      some 0 ∧
    ((StreamRateLimitInterceptor stTokensGone ipA methodA [.recv, .send] .ok).steps.filter
        (fun stp => stp.transportInvoked)).length = 0 :=
  ⟨by decide, by decide,
    (((C8_stream_open stTokensGone ipA methodA [.recv, .send] .ok (by decide)).2 0
      ({ stTokensGone with globalUsed := 1 }) (by decide) (by decide)).2 (by decide)).1,
    ((((((((C8_stream_open stTokensGone ipA methodA [.recv, .send] .ok (by decide)).2 0
      ({ stTokensGone with globalUsed := 1 }) (by decide) (by decide)).2
        (by decide)).2).2).2).2).2).2.2⟩

/-- C9: a per-message token rejection affects only that message — the
underlying transport is not invoked for it and the state (hence every held
slot) is untouched; the stream is not closed (every subsequent operation
still yields a step); the whole message phase never changes the global
occupancy or any bundle's concurrency occupancy; and on an admitted stream
the connection-level slots are released exactly once, when the handler
returns, whatever the per-message outcomes and the handler's own outcome. -/
theorem C9_per_message (st : ServerState) (s : rateLimitServerStream) (e : GrpcError)
    (ops : List StreamOp) (ip method : GoStr) (hend : HandlerBehavior) :
    ((RecvMsg st s).error = some e →
        (RecvMsg st s).transportInvoked = false ∧ (RecvMsg st s).state = st) ∧
    ((SendMsg st s).error = some e →
        (SendMsg st s).transportInvoked = false ∧ (SendMsg st s).state = st) ∧
    ((processOps s st ops).steps.length = ops.length ∧
      (processOps s st ops).state.globalUsed = st.globalUsed ∧
      ∀ p, (heapGet (processOps s st ops).state.heap p).concUsed =
        (heapGet st.heap p).concUsed) ∧
    (isBypassMethod st.config.BypassPatterns method = false →
      ∀ (ptr : Nat) (st2 : ServerState), st.globalUsed < st.globalCap →
        getLimiter { st with globalUsed := st.globalUsed + 1 } (ip ++ ['|'] ++ method) =
          (ptr, st2) →
        (heapGet st2.heap ptr).concUsed < (heapGet st2.heap ptr).concCap →
        (StreamRateLimitInterceptor st ip method ops hend).globalAcq = 1 ∧
        (StreamRateLimitInterceptor st ip method ops hend).globalRel = 1 ∧
        (StreamRateLimitInterceptor st ip method ops hend).concAcq = 1 ∧
        (StreamRateLimitInterceptor st ip method ops hend).concRel = 1 ∧
        (StreamRateLimitInterceptor st ip method ops hend).state.globalUsed =
          st.globalUsed) := by
  refine ⟨?_, ?_, ⟨processOps_steps_length s st ops, processOps_globalUsed s st ops,
    processOps_concUsed s st ops⟩, ?_⟩
  · intro hre
    unfold RecvMsg at hre ⊢
    rcases hq : qpsAllow st s.limiter with ⟨qb, st1⟩
    rw [hq] at hre
    cases qb
    · have hst1 : st1 = st := by
        have h0 := hq
        unfold qpsAllow at h0
        by_cases htok : 0 < (heapGet st.heap s.limiter).qpsTokens
        · simp [htok] at h0
        · simp [htok] at h0
          exact h0.symm
      simp [hst1]
    · simp at hre
  · intro hre
    unfold SendMsg at hre ⊢
    rcases hq : qpsAllow st s.limiter with ⟨qb, st1⟩
    rw [hq] at hre
    cases qb
    · have hst1 : st1 = st := by
        have h0 := hq
        unfold qpsAllow at h0
        by_cases htok : 0 < (heapGet st.heap s.limiter).qpsTokens
        · simp [htok] at h0
        · simp [htok] at h0
          exact h0.symm
      simp [hst1]
    · simp at hre
  · intro hby ptr st2 hglob hget
    simp only [List.append_assoc, List.singleton_append] at hget
    have hga := acquireGlobal_pos hglob
    have hu2 : st2.globalUsed = st.globalUsed + 1 := by
      have := getLimiter_globalUsed ({ st with globalUsed := st.globalUsed + 1 })
        (ip ++ '|' :: method)
      rw [hget] at this
      simpa using this
    intro hcok
    have hc := @concTryAcquire_pos st2 ptr hcok
    unfold StreamRateLimitInterceptor
    simp only [hby, Bool.false_eq_true, if_false, List.append_assoc, List.singleton_append,
      hga, hget]
    simp only [hc]
    refine ⟨by simp, by simp, by simp, by simp, ?_⟩
    simp only [releaseGlobal, concRelease]
    rw [processOps_globalUsed]
    simp [hu2]

/-- C9 witness: with the key's bucket empty, a decorated receive is rejected,
the transport is not reached, and the state — including both held slots —
is untouched. -/
theorem C9_witness :
    (RecvMsg stTokensGone ⟨methodA, ipA, 0⟩).error =
        some ⟨.Internal, gs "stream recv rate limit exceeded"⟩ ∧
    (RecvMsg stTokensGone ⟨methodA, ipA, 0⟩).transportInvoked = false ∧
    (RecvMsg stTokensGone ⟨methodA, ipA, 0⟩).state = stTokensGone :=
  ⟨by decide,
    ((C9_per_message stTokensGone ⟨methodA, ipA, 0⟩
      ⟨.Internal, gs "stream recv rate limit exceeded"⟩ [] ipA methodA .ok).1 (by decide)).1,
    ((C9_per_message stTokensGone ⟨methodA, ipA, 0⟩
      ⟨.Internal, gs "stream recv rate limit exceeded"⟩ [] ipA methodA .ok).1 (by decide)).2⟩

/-- C10: every reconfiguration overwrites the publisher field
unconditionally (there is no retain-previous rule for it); with a nil
publisher a rejection performs no publish attempt, on unary calls and on
streams alike; and the caller-visible decision of the unary gate does not
depend on the configured publisher at all. -/
theorem C10_publisher (st : ServerState) (req : RateLimiterConfig) (ip method : GoStr)
    (h : HandlerBehavior) (ops : List StreamOp) (hend : HandlerBehavior) (p : Option Nat) :
    (InitRateLimiterConfig st req).config.NatsConn = req.NatsConn ∧
    (st.config.NatsConn = none →
      (UnaryRateLimitInterceptor st ip method h).notes = [] ∧
      (StreamRateLimitInterceptor st ip method ops hend).notes = []) ∧
    (UnaryRateLimitInterceptor (setPub st p) ip method h).result =
      (UnaryRateLimitInterceptor st ip method h).result :=
  ⟨rfl,
    fun hn => ⟨unary_notes_none st ip method h hn,
      stream_notes_none st ip method ops hend hn⟩,
    unary_result_setPub st ip method h p⟩

/-- C10 witness: the default state has no publisher, and a rejected call on
it attempts no publish. -/
theorem C10_witness :
    stFullGlobal.config.NatsConn = none ∧
    (UnaryRateLimitInterceptor stFullGlobal ipA methodA .ok).notes = [] :=
  ⟨by decide,
    ((C10_publisher stFullGlobal DefaultRateLimiterConfig ipA methodA .ok [] .ok
      none).2.1 (by decide)).1⟩
